import Mathlib

/-!
Shallow embedding of the helpdev suggestion pipeline: the `AIHelper` class
of src/lib/ai-helper.ts and the storage layer of
src/lib/storage/code-storage.ts.

Modelling conventions:
- ISO-8601 timestamps are modelled as natural numbers; the code only creates
  them with `new Date().toISOString()` and compares them (SQL `<`, `ORDER BY`),
  and ISO strings compare consistently with time.  `cleanupOldData` measures
  its horizon in the same unit (one step = one day).
- UUIDs and AUTOINCREMENT row ids are modelled as naturals supplied by a
  fresh-id parameter (respectively the current table length).
- SQL `LIKE '%t%'` is modelled as case-insensitive substring containment
  (SQLite folds ASCII case by default); wildcard metacharacters occurring
  inside the searched text are not modelled.
- The OpenAI chat endpoint is an oracle `String → Except Unit (Option String)`
  mapping the user prompt to either a thrown error, a missing content field,
  or the content text.  JavaScript exceptions are modelled with `Except Unit`;
  a `try/catch` block becomes a `match` on the collaborator's result.
- JavaScript strings are handled at `Char` granularity via `String.toList`.
-/

/-- Characters matched by the JavaScript regex class `\s` (also the set
trimmed by `String.prototype.trim`). -/
def jsWs (c : Char) : Bool :=
  c = ' ' || c = '\t' || c = '\n' || c = '\r' || c = '\u000B' || c = '\u000C' ||
  c = '\u00A0' || c = '\u1680' || ('\u2000' ≤ c && c ≤ '\u200A') ||
  c = '\u2028' || c = '\u2029' || c = '\u202F' || c = '\u205F' ||
  c = '\u3000' || c = '\uFEFF'

/-- Characters matched by the JavaScript regex `.` (without the `s` flag):
everything except a line terminator. -/
def jsDot (c : Char) : Bool :=
  !(c = '\n' || c = '\r' || c = '\u2028' || c = '\u2029')

/-- Test whether `pre` is a prefix of `l` (plain character equality). -/
def isPrefixCh : List Char → List Char → Bool
  | [], _ => true
  | _ :: _, [] => false
  | a :: as, b :: bs => a = b && isPrefixCh as bs

/-- Test whether `needle` occurs as a contiguous infix of `hay`. -/
def isInfixCh (needle : List Char) : List Char → Bool
  | [] => needle.isEmpty
  | c :: cs => isPrefixCh needle (c :: cs) || isInfixCh needle cs

/-- Model of SQL `hay LIKE '%needle%'`: case-insensitive containment. -/
def likeContains (hay needle : String) : Bool :=
  isInfixCh (needle.toList.map Char.toLower) (hay.toList.map Char.toLower)

/-- Split a character list at every occurrence of `sep`, as JavaScript
`String.prototype.split` does (an empty input yields one empty field). -/
def splitOnCh (sep : Char) : List Char → List (List Char)
  | [] => [[]]
  | c :: cs =>
    if c = sep then [] :: splitOnCh sep cs
    else
      match splitOnCh sep cs with
      | [] => [[c]]
      | l :: ls => (c :: l) :: ls

/-- Drop leading and trailing JavaScript whitespace. -/
def trimCh (l : List Char) : List Char :=
  ((l.dropWhile jsWs).reverse.dropWhile jsWs).reverse

/-- Model of JavaScript `s.substring(0, n)` / `s.slice(0, n)`. -/
def strTake (n : Nat) (s : String) : String :=
  String.mk (s.toList.take n)

/-- Model of JavaScript `s.trim()`. -/
def jsTrim (s : String) : String :=
  String.mk (trimCh s.toList)

/-- Model of the JavaScript expression `s || d` for an optional string:
`undefined` and the empty string are falsy. -/
def jsOr (s : Option String) (d : String) : String :=
  match s with
  | none => d
  | some v => if v = "" then d else v

/-- Truthiness of an optional JavaScript string. -/
def optTruthy : Option String → Bool
  | none => false
  | some s => !(s = "")

/-- Truthiness of an optional JavaScript number (0 is falsy). -/
def optNatTruthy : Option Nat → Bool
  | none => false
  | some n => !(n = 0)

/-- Normalise an optional string: a falsy value (absent or empty) becomes
`none`, mirroring the `language ? e1 : e2` conditionals of the source. -/
def jsNonEmpty (s : Option String) : Option String :=
  match s with
  | none => none
  | some v => if v = "" then none else some v

/-- Model of `JSON.stringify(tags)` as stored in the `tags` column. -/
def jsonTags (tags : List String) : String :=
  "[" ++ String.intercalate "," (tags.map (fun t => "\"" ++ t ++ "\"")) ++ "]"

/-- Row of the `snippets` table (interface `CodeSnippet`). -/
structure CodeSnippet where
  id : Nat
  content : String
  language : String
  tags : List String
  filePath : Option String
  projectContext : Option String
  timestamp : Nat
  sourceApp : String
  favorited : Bool
deriving DecidableEq

/-- Row of the `error_patterns` table (interface `ErrorPattern`). -/
structure ErrorPattern where
  id : Nat
  errorText : String
  solution : String
  language : String
  frequency : Nat
  lastEncountered : Nat
deriving DecidableEq

/-- Row of the `developer_context` table. -/
structure ContextRow where
  id : Nat
  currentApp : String
  activeFile : Option String
  projectRoot : Option String
  lastActivity : Nat
deriving DecidableEq

/-- Argument of `updateDeveloperContext` (a `Partial<DeveloperContext>`);
the `lastActivity` field is accepted but ignored by the function, which
stamps its own current instant. -/
structure ContextInput where
  currentApp : Option String := none
  activeFile : Option String := none
  projectRoot : Option String := none
  lastActivity : Option Nat := none
deriving DecidableEq

/-- State of the SQLite database `dev-assistant.db`. -/
structure Db where
  snippets : List CodeSnippet
  error_patterns : List ErrorPattern
  developer_context : List ContextRow
deriving DecidableEq

/-- Options object of `getSnippets`. -/
structure SnippetQuery where
  language : Option String := none
  searchTerm : Option String := none
  limit : Option Nat := none
deriving DecidableEq

/-- Argument of `recordError`. -/
structure ErrorInput where
  errorText : String
  solution : String
  language : String
deriving DecidableEq

/-- Stable insertion into a list sorted by descending key. -/
def orderedInsertDesc (key : α → Nat) (a : α) : List α → List α
  | [] => [a]
  | b :: l => if key b ≤ key a then a :: b :: l else b :: orderedInsertDesc key a l

/-- Stable sort by descending key, modelling `ORDER BY key DESC`. -/
def sortDescBy (key : α → Nat) : List α → List α
  | [] => []
  | a :: l => orderedInsertDesc key a (sortDescBy key l)

/-- WHERE clause of the `getSnippets` query; mirrors the truthiness tests
`if (options.language)` and `if (options.searchTerm)` of the source. -/
def snippetWhere (q : SnippetQuery) (s : CodeSnippet) : Bool :=
  (if optTruthy q.language then s.language = q.language.getD "" else true) &&
  (if optTruthy q.searchTerm then
      likeContains s.content (q.searchTerm.getD "") ||
      likeContains (jsonTags s.tags) (q.searchTerm.getD "")
    else true)

/-- Embedding of `getSnippets` (code-storage.ts): filter by language and by
a LIKE search over content and serialized tags, order by timestamp
descending, and apply LIMIT when the option is truthy. -/
def getSnippets (db : Db) (q : SnippetQuery) : List CodeSnippet :=
  let rows := sortDescBy (fun s => s.timestamp) (db.snippets.filter (snippetWhere q))
  if optNatTruthy q.limit then rows.take (q.limit.getD 0) else rows

/-- Match predicate of the dedup lookup in `recordError`: same language and
the stored `errorText` contains the first 50 characters of the new text. -/
def errMatches (language prefix50 : String) (r : ErrorPattern) : Bool :=
  r.language = language && likeContains r.errorText prefix50

/-- Embedding of `recordError` (code-storage.ts): if a similar pattern
exists (LIMIT 1 over the table scan), bump its frequency, refresh
`lastEncountered` and replace the solution in place; the object returned to
the caller only has its frequency bumped, as in the source.  Otherwise
insert a fresh row with frequency 1. -/
def recordError (db : Db) (now newId : Nat) (e : ErrorInput) : ErrorPattern × Db :=
  match db.error_patterns.find? (errMatches e.language (strTake 50 e.errorText)) with
  | some existing =>
    let stored : ErrorPattern :=
      { existing with
          frequency := existing.frequency + 1
          lastEncountered := now
          solution := e.solution }
    ({ existing with frequency := existing.frequency + 1 },
     { db with
         error_patterns :=
           db.error_patterns.map (fun r => if r.id = existing.id then stored else r) })
  | none =>
    let newErr : ErrorPattern :=
      { id := newId
        errorText := e.errorText
        solution := e.solution
        language := e.language
        frequency := 1
        lastEncountered := now }
    (newErr, { db with error_patterns := db.error_patterns ++ [newErr] })

/-- Embedding of `getErrorSolutions` (code-storage.ts): same-language rows
whose text contains the first 100 characters of the query, ordered by
descending frequency, capped at 5. -/
def getErrorSolutions (db : Db) (errorText language : String) : List ErrorPattern :=
  (sortDescBy (fun r => r.frequency)
      (db.error_patterns.filter
        (fun r => r.language = language && likeContains r.errorText (strTake 100 errorText)))).take 5

/-- Embedding of `updateDeveloperContext` (code-storage.ts): append one row
stamped with the current instant, defaulting a falsy app name to
`"unknown"`; the AUTOINCREMENT id is modelled by the table length. -/
def updateDeveloperContext (db : Db) (now : Nat) (ctx : ContextInput) : Db :=
  let row : ContextRow :=
    { id := db.developer_context.length
      currentApp := jsOr ctx.currentApp "unknown"
      activeFile := ctx.activeFile
      projectRoot := ctx.projectRoot
      lastActivity := now }
  { db with developer_context := db.developer_context ++ [row] }

/-- Embedding of `getCurrentContext` (code-storage.ts): the row with the
latest activity, or `none` for an empty table. -/
def getCurrentContext (db : Db) : Option ContextRow :=
  (sortDescBy (fun c => c.lastActivity) db.developer_context).head?

/-- Embedding of `cleanupOldData` (code-storage.ts): delete snippets and
context rows strictly older than the cutoff; error patterns are not
touched. -/
def cleanupOldData (db : Db) (now daysToKeep : Nat) : Db :=
  let cutoff := now - daysToKeep
  { db with
      snippets := db.snippets.filter (fun s => !(s.timestamp < cutoff))
      developer_context := db.developer_context.filter (fun c => !(c.lastActivity < cutoff)) }

/-- Strip a case-insensitive literal (given in lowercase) from the front of
a character list, returning the remainder. -/
def stripPrefixCI (lit : List Char) (s : List Char) : Option (List Char) :=
  match lit, s with
  | [], rest => some rest
  | _ :: _, [] => none
  | l :: ls, c :: cs => if c.toLower = l then stripPrefixCI ls cs else none

/-- Strip a case-sensitive literal from the front of a character list. -/
def stripPrefixCS (lit : List Char) (s : List Char) : Option (List Char) :=
  match lit, s with
  | [], rest => some rest
  | _ :: _, [] => none
  | l :: ls, c :: cs => if c = l then stripPrefixCS ls cs else none

/-- Consume the regex tail `:\s*(.*)` and return the remainder after the
greedy group. -/
def afterColon (s : List Char) : Option (List Char) :=
  match s with
  | ':' :: s2 => some ((s2.dropWhile jsWs).dropWhile jsDot)
  | _ => none

/-- Consume the regex tail `\s*:\s*(.*)` and return the remainder. -/
def afterWsColon (s : List Char) : Option (List Char) :=
  afterColon (s.dropWhile jsWs)

/-- Attempt the pattern `error\s*:\s*(.*)` (case-insensitive) at the head of
`s`, returning the remainder after the whole match. -/
def tryP0 (s : List Char) : Option (List Char) :=
  match stripPrefixCI ['e', 'r', 'r', 'o', 'r'] s with
  | some rest => afterWsColon rest
  | none => none

/-- Attempt `(SyntaxError|TypeError|ReferenceError):\s*(.*)` at the head of
`s`; the three alternatives start with distinct letters, so at most one can
apply at a given position. -/
def tryP1 (s : List Char) : Option (List Char) :=
  match stripPrefixCS "SyntaxError".toList s with
  | some rest => afterColon rest
  | none =>
    match stripPrefixCS "TypeError".toList s with
    | some rest => afterColon rest
    | none =>
      match stripPrefixCS "ReferenceError".toList s with
      | some rest => afterColon rest
      | none => none

/-- Attempt `(E\d+):\s*(.*)` at the head of `s`. -/
def tryP2 (s : List Char) : Option (List Char) :=
  match s with
  | 'E' :: rest =>
    let ds := rest.takeWhile Char.isDigit
    if ds.isEmpty then none else afterColon (rest.dropWhile Char.isDigit)
  | _ => none

/-- Attempt `(exception|unhandled)\s*(.*)` (case-insensitive) at the head of
`s`.  The greedy `\s*` may cross a line terminator, in which case the greedy
dot group continues on the following line, exactly as in JavaScript. -/
def tryP3 (s : List Char) : Option (List Char) :=
  match stripPrefixCI "exception".toList s with
  | some rest => some ((rest.dropWhile jsWs).dropWhile jsDot)
  | none =>
    match stripPrefixCI "unhandled".toList s with
    | some rest => some ((rest.dropWhile jsWs).dropWhile jsDot)
    | none => none

/-- Leftmost-match search: try the position matcher at every start position
from the left and return the full matched text (`match[0]`), as a
non-global `String.prototype.match` does. -/
def scanMatch (f : List Char → Option (List Char)) : List Char → Option String
  | [] =>
    match f [] with
    | some _ => some ""
    | none => none
  | c :: cs =>
    match f (c :: cs) with
    | some rest => some (String.mk ((c :: cs).take ((c :: cs).length - rest.length)))
    | none => scanMatch f cs

/-- Full match of `/error\s*:\s*(.*)/i` against a string, if any. -/
def matchP0 (code : String) : Option String := scanMatch tryP0 code.toList

/-- Full match of `/(SyntaxError|TypeError|ReferenceError):\s*(.*)/`. -/
def matchP1 (code : String) : Option String := scanMatch tryP1 code.toList

/-- Full match of `/(E\d+):\s*(.*)/`. -/
def matchP2 (code : String) : Option String := scanMatch tryP2 code.toList

/-- Full match of `/(exception|unhandled)\s*(.*)/i`. -/
def matchP3 (code : String) : Option String := scanMatch tryP3 code.toList

/-- The fixed ordered list of error signatures of `detectErrors`. -/
def errorMatchers : List (String → Option String) :=
  [matchP0, matchP1, matchP2, matchP3]

/-- One emitted (error, solution) pair. -/
structure ErrPair where
  error : String
  solution : String
deriving DecidableEq

/-- Accumulated state of the `detectErrors` loop: pairs found so far, the
database, the next fresh row id, and the log of completion-API prompts
issued so far (used to count API invocations). -/
structure DetectState where
  found : List ErrPair
  db : Db
  nextId : Nat
  calls : List String
deriving DecidableEq

/-- Prompt template of `generateErrorSolution`. -/
def solutionPrompt (language : Option String) (error : String) : String :=
  "Provide a concise solution for this " ++ jsOr language "programming" ++
  " error:\n      Error: " ++ error ++ "\n      \n      Solution:"

/-- Post-processing of the completion response in `generateErrorSolution`:
a thrown error, a missing content field, or an all-whitespace content all
yield `undefined`; otherwise the trimmed content. -/
def aiSolutionOf (res : Except Unit (Option String)) : Option String :=
  match res with
  | .error _ => none
  | .ok none => none
  | .ok (some c) => if jsTrim c = "" then none else some (jsTrim c)

/-- Body of the `detectErrors` loop for one signature: on a match, consult
the solution cache (only when the language tag is truthy), emit the cached
pairs if any, otherwise ask the completion API once and, on success, emit
the pair and record it via `recordError`. -/
def detectStep (api : String → Except Unit (Option String)) (lang : Option String)
    (now : Nat) (code : String) (st : DetectState) (matcher : String → Option String) :
    DetectState :=
  match matcher code with
  | none => st
  | some errorText =>
    let dbSolutions :=
      match jsNonEmpty lang with
      | some l => getErrorSolutions st.db errorText l
      | none => []
    if 0 < dbSolutions.length then
      { st with
          found := st.found ++ dbSolutions.map (fun sol => ⟨errorText, sol.solution⟩) }
    else
      let prompt := solutionPrompt lang errorText
      let st1 := { st with calls := st.calls ++ [prompt] }
      match aiSolutionOf (api prompt) with
      | none => st1
      | some s =>
        let st2 := { st1 with found := st1.found ++ [⟨errorText, s⟩] }
        match jsNonEmpty lang with
        | some l =>
          let recRes := recordError st2.db now st2.nextId ⟨errorText, s, l⟩
          { st2 with db := recRes.2, nextId := st2.nextId + 1 }
        | none => st2

/-- Embedding of `AIHelper.detectErrors`: fold the loop body over the fixed
signature list, starting from an empty result. -/
def detectErrors (api : String → Except Unit (Option String)) (code : String)
    (lang : Option String) (db : Db) (now nextId : Nat) : DetectState :=
  errorMatchers.foldl (detectStep api lang now code) ⟨[], db, nextId, []⟩

/-- Return value of `detectErrors`: the pairs, or `undefined` when none. -/
def detectOutput (st : DetectState) : Option (List ErrPair) :=
  if 0 < st.found.length then some st.found else none

/-- Test of `line.startsWith('-') || line.startsWith('•')`. -/
def isBulletLine (l : List Char) : Bool :=
  match l with
  | c :: _ => c = '-' || c = '•'
  | [] => false

/-- Model of `line.replace(/^[-•]\s*/, '')`: remove one leading bullet
marker and the whitespace following it, when present. -/
def stripBullet (l : List Char) : List Char :=
  match l with
  | c :: rest => if c = '-' || c = '•' then rest.dropWhile jsWs else l
  | [] => l

/-- Bullet-point parsing of the suggestion response: keep the lines that
start with a bullet marker, strip one marker and trim, keep the first 3. -/
def parseBullets (content : String) : List String :=
  ((((splitOnCh '\n' content.toList).filter isBulletLine).map
      (fun l => String.mk (trimCh (stripBullet l)))).take 3)

/-- Prompt template of `generateSuggestions`. -/
def suggestionPrompt (filePath language : Option String) (code : String)
    (snippets : List CodeSnippet) : String :=
  "Based on this code context:\n      File: " ++ jsOr filePath "unknown" ++
  "\n      Language: " ++ jsOr language "unknown" ++
  "\n      Current code:\n      " ++ code ++ "\n      \n      " ++
  (if 0 < snippets.length then
      "Relevant snippets:\n" ++ String.intercalate "\n---\n" (snippets.map (fun s => s.content))
    else "") ++
  "\n      \n      Provide 3 concise suggestions to improve or continue this code. Format as bullet points."

/-- Embedding of `AIHelper.generateSuggestions`, parametrised by the results
of its three awaited collaborators (context fetch, snippet fetch, completion
call); the surrounding `try/catch` turns any thrown error into `[]`, and a
falsy content also yields `[]`.  The fetched developer context is bound but
never used by the source. -/
def generateSuggestions (api : String → Except Unit (Option String))
    (filePath language : Option String) (code : String)
    (ctxRes : Except Unit (Option ContextRow))
    (snipRes : Except Unit (List CodeSnippet)) : List String :=
  match ctxRes with
  | .error _ => []
  | .ok _ =>
    match snipRes with
    | .error _ => []
    | .ok snippets =>
      match api (suggestionPrompt filePath language code snippets) with
      | .error _ => []
      | .ok none => []
      | .ok (some content) => if content = "" then [] else parseBullets content

/-- Embedding of `AIHelper.findRelevantSnippets`: empty trimmed input yields
`undefined`; an exact-substring search over the first 50 characters capped
at 2 short-circuits; otherwise every same-language snippet is scored by the
(placeholder) similarity oracle `sim`, sorted by descending score, and the
top 2 are returned. -/
def findRelevantSnippets (db : Db) (sim : CodeSnippet → Nat) (code : String)
    (lang : Option String) : Option (List CodeSnippet) :=
  if jsTrim code = "" then none
  else
    let exactMatches :=
      getSnippets db { language := lang, searchTerm := some (strTake 50 (jsTrim code)), limit := some 2 }
    if 0 < exactMatches.length then some exactMatches
    else
      let allSnippets := getSnippets db { language := lang }
      let scored := allSnippets.map (fun s => (s, sim s))
      some (((sortDescBy (fun p => p.2) scored).take 2).map (fun p => p.1))

/-- Context descriptor accepted by `processCodeContent`. -/
structure ProcessContext where
  filePath : Option String := none
  language : Option String := none
  sourceApp : String
deriving DecidableEq

/-- Merged result of `processCodeContent`, together with the final database
state reached through the pipeline's writes. -/
structure ProcessResult where
  suggestions : List String
  errors : Option (List ErrPair)
  snippets : Option (List CodeSnippet)
  db : Db
deriving DecidableEq

/-- Embedding of `AIHelper.processCodeContent` on the failure-free path:
update the developer context first, then run the three analyses from the
updated state (the error detector is the only writer among them) and merge
their results. -/
def processCodeContent (api : String → Except Unit (Option String))
    (sim : CodeSnippet → Nat) (db : Db) (now nextId : Nat) (content : String)
    (ctx : ProcessContext) : ProcessResult :=
  let db1 := updateDeveloperContext db now
    { currentApp := some ctx.sourceApp, activeFile := ctx.filePath, lastActivity := some now }
  let det := detectErrors api content ctx.language db1 now nextId
  let sugg := generateSuggestions api ctx.filePath ctx.language content
    (.ok (getCurrentContext db1))
    (.ok (getSnippets db1 { language := ctx.language, limit := some 3 }))
  let snip := findRelevantSnippets db1 sim content ctx.language
  { suggestions := sugg, errors := detectOutput det, snippets := snip, db := det.db }

/-- True when `detectErrors` performs at least one solution-cache query:
some signature matches and the language tag is truthy.  The queries inside
`detectErrors` run outside any `try/catch`. -/
def detectorQueriesStore (content : String) (lang : Option String) : Bool :=
  optTruthy lang && errorMatchers.any (fun m => (m content).isSome)

/-- Embedding of `processCodeContent` with storage-failure injection:
`updFail` makes the awaited `updateDeveloperContext` reject, which
propagates; `solFail` makes the first `getErrorSolutions` call inside
`detectErrors` reject, which also propagates because that call is not
wrapped in a `try/catch`. -/
def processCodeContentE (updFail solFail : Bool)
    (api : String → Except Unit (Option String)) (sim : CodeSnippet → Nat)
    (db : Db) (now nextId : Nat) (content : String) (ctx : ProcessContext) :
    Except Unit ProcessResult :=
  if updFail then .error ()
  else if solFail && detectorQueriesStore content ctx.language then .error ()
  else .ok (processCodeContent api sim db now nextId content ctx)

/-- Completion oracle that always answers with the text `fix`. -/
def apiFix : String → Except Unit (Option String) := fun _ => Except.ok (some "fix")

/-- Completion oracle that always answers with one bullet line. -/
def apiTip : String → Except Unit (Option String) := fun _ => Except.ok (some "- tip")

/-- Completion oracle that answers with a doubled bullet marker. -/
def apiDash : String → Except Unit (Option String) := fun _ => Except.ok (some "--a")

/-- Completion oracle that answers with the bullet line `- a`. -/
def apiBullet : String → Except Unit (Option String) := fun _ => Except.ok (some "- a")

/-- Completion oracle whose every call throws. -/
def apiErr : String → Except Unit (Option String) := fun _ => Except.error ()

/-- Placeholder similarity oracle (constant score). -/
def simZero : CodeSnippet → Nat := fun _ => 0

/-- Empty database. -/
def dbEmpty : Db := ⟨[], [], []⟩

/-- Empty initial state of the `detectErrors` loop. -/
def stEmpty : DetectState := ⟨[], dbEmpty, 0, []⟩

/-- Stored error text of 50 characters: `error: ` followed by 43 `x`. -/
def cA : String := "error: " ++ String.mk (List.replicate 43 'x')

/-- Candidate error text of 67 characters: `error: ` followed by 60 `x`;
its first 50 characters are exactly `cA`. -/
def cC : String := "error: " ++ String.mk (List.replicate 60 'x')

/-- Database holding one error pattern whose text is `cA`. -/
def dbC1 : Db := ⟨[], [⟨7, cA, "old", "ts", 1, 0⟩], []⟩

/-- Snippet whose content avoids the search term but whose tag carries it. -/
def snipTag : CodeSnippet := ⟨0, "zzz", "ts", ["needle"], none, none, 0, "app", false⟩

/-- Database holding only `snipTag`. -/
def dbTag : Db := ⟨[snipTag], [], []⟩

/-- Snippet whose content starts with the search text `abc`. -/
def snipAbc : CodeSnippet := ⟨1, "abc def", "ts", [], none, none, 9, "app", false⟩

/-- Database holding only `snipAbc`. -/
def dbAbc : Db := ⟨[snipAbc], [], []⟩

/-- Snippet stamped at instant 5. -/
def snipNow : CodeSnippet := ⟨2, "k", "ts", [], none, none, 5, "app", false⟩

/-- Context row stamped at instant 5. -/
def ctxNow : ContextRow := ⟨0, "app", none, none, 5⟩

/-- Database whose snippet and context rows are stamped at the instant 5. -/
def dbNow : Db := ⟨[snipNow], [⟨3, "e", "s", "ts", 1, 0⟩], [ctxNow]⟩

/-- Snippet stamped at instant 0. -/
def snipOld : CodeSnippet := ⟨4, "k", "ts", [], none, none, 0, "app", false⟩

/-- Context row stamped at instant 0. -/
def ctxOld : ContextRow := ⟨1, "app", none, none, 0⟩

/-- Database with one old snippet, one error pattern, one old context row. -/
def dbOld : Db := ⟨[snipOld], [⟨5, "e", "s", "ts", 1, 0⟩], [ctxOld]⟩

/-- First observation of the error `E1: boom`. -/
def errBoom1 : ErrorInput := ⟨"E1: boom", "s1", "ts"⟩

/-- Second observation of the same error with a fresh solution. -/
def errBoom2 : ErrorInput := ⟨"E1: boom", "s2", "ts"⟩

/-- Membership in a descending insertion is membership in the parts. -/
theorem mem_orderedInsertDesc {key : α → Nat} {a b : α} {l : List α} :
    b ∈ orderedInsertDesc key a l ↔ b = a ∨ b ∈ l := by
  induction l with
  | nil => simp [orderedInsertDesc]
  | cons c cs ih =>
    by_cases h : key c ≤ key a
    · simp [orderedInsertDesc, h]
    · simp only [orderedInsertDesc, h, if_false, List.mem_cons, ih]
      tauto

/-- Descending insertion preserves descending pairwise order. -/
theorem pairwise_orderedInsertDesc (key : α → Nat) (a : α) (l : List α)
    (h : l.Pairwise (fun x y => key y ≤ key x)) :
    (orderedInsertDesc key a l).Pairwise (fun x y => key y ≤ key x) := by
  induction l with
  | nil => simp [orderedInsertDesc]
  | cons b bs ih =>
    rw [List.pairwise_cons] at h
    by_cases hb : key b ≤ key a
    · rw [orderedInsertDesc, if_pos hb]
      rw [List.pairwise_cons]
      refine ⟨?_, List.pairwise_cons.mpr h⟩
      intro y hy
      rcases List.mem_cons.mp hy with rfl | hy2
      · exact hb
      · exact Nat.le_trans (h.1 y hy2) hb
    · rw [orderedInsertDesc, if_neg hb]
      rw [List.pairwise_cons]
      refine ⟨?_, ih h.2⟩
      intro y hy
      rcases mem_orderedInsertDesc.mp hy with rfl | hy2
      · exact Nat.le_of_lt (Nat.lt_of_not_le hb)
      · exact h.1 y hy2

/-- The modelled `ORDER BY key DESC` really sorts by descending key. -/
theorem pairwise_sortDescBy (key : α → Nat) (l : List α) :
    (sortDescBy key l).Pairwise (fun x y => key y ≤ key x) := by
  induction l with
  | nil => exact List.Pairwise.nil
  | cons a l ih => exact pairwise_orderedInsertDesc key a _ ih

/-- Truncation of the cache lookup key is idempotent. -/
theorem strTake_strTake (n : Nat) (s : String) : strTake n (strTake n s) = strTake n s := by
  simp [strTake, String.toList, List.take_take]

/-- A truthy LIMIT caps the number of returned snippets. -/
theorem getSnippets_length_le (db : Db) (q : SnippetQuery) (n : Nat)
    (hq : q.limit = some n) (hn : n ≠ 0) : (getSnippets db q).length ≤ n := by
  unfold getSnippets
  rw [hq]
  rw [if_pos (show optNatTruthy (some n) = true by simp [optNatTruthy, hn])]
  simp only [Option.getD_some]
  exact List.length_take_le n _

/-- The suggestion parser returns at most three entries. -/
theorem parseBullets_length_le (c : String) : (parseBullets c).length ≤ 3 := by
  unfold parseBullets
  exact List.length_take_le 3 _

/-- Every parsed suggestion comes from a bullet line of the response, with
one marker stripped and the result trimmed. -/
theorem mem_parseBullets {c x : String} (h : x ∈ parseBullets c) :
    ∃ l, l ∈ splitOnCh '\n' c.toList ∧ isBulletLine l = true ∧
      x = String.mk (trimCh (stripBullet l)) := by
  unfold parseBullets at h
  have h2 := List.mem_of_mem_take h
  obtain ⟨l, hl, rfl⟩ := List.mem_map.mp h2
  exact ⟨l, (List.mem_filter.mp hl).1, (List.mem_filter.mp hl).2, rfl⟩

/-- The suggestion generator emits at most three entries in every branch. -/
theorem generateSuggestions_length_le (api : String → Except Unit (Option String))
    (fp lang : Option String) (code : String) (ctxRes : Except Unit (Option ContextRow))
    (snipRes : Except Unit (List CodeSnippet)) :
    (generateSuggestions api fp lang code ctxRes snipRes).length ≤ 3 := by
  cases ctxRes with
  | error e => simp [generateSuggestions]
  | ok a =>
    cases snipRes with
    | error e => simp [generateSuggestions]
    | ok snips =>
      cases hapi : api (suggestionPrompt fp lang code snips) with
      | error e => simp [generateSuggestions, hapi]
      | ok c =>
        cases c with
        | none => simp [generateSuggestions, hapi]
        | some content =>
          by_cases hc : content = ""
          · simp [generateSuggestions, hapi, hc]
          · simp [generateSuggestions, hapi, hc, parseBullets_length_le]

/-- When the completion API never yields a bullet line, the suggestion
generator returns the empty list. -/
theorem generateSuggestions_no_bullets (api : String → Except Unit (Option String))
    (fp lang : Option String) (code : String) (ctxRes : Except Unit (Option ContextRow))
    (snipRes : Except Unit (List CodeSnippet))
    (h : ∀ p content, api p = .ok (some content) → parseBullets content = []) :
    generateSuggestions api fp lang code ctxRes snipRes = [] := by
  cases ctxRes with
  | error e => simp [generateSuggestions]
  | ok a =>
    cases snipRes with
    | error e => simp [generateSuggestions]
    | ok snips =>
      cases hapi : api (suggestionPrompt fp lang code snips) with
      | error e => simp [generateSuggestions, hapi]
      | ok c =>
        cases c with
        | none => simp [generateSuggestions, hapi]
        | some content =>
          by_cases hc : content = ""
          · simp [generateSuggestions, hapi, hc]
          · simp [generateSuggestions, hapi, hc, h _ _ hapi]

/-- Characterisation of `recordError` on a fresh error text. -/
theorem recordError_not_found (db : Db) (now newId : Nat) (e : ErrorInput)
    (h : db.error_patterns.find? (errMatches e.language (strTake 50 e.errorText)) = none) :
    recordError db now newId e =
      (⟨newId, e.errorText, e.solution, e.language, 1, now⟩,
       { db with error_patterns :=
           db.error_patterns ++ [⟨newId, e.errorText, e.solution, e.language, 1, now⟩] }) := by
  simp [recordError, h]

/-- Characterisation of `recordError` on a matching stored pattern. -/
theorem recordError_found (db : Db) (now newId : Nat) (e : ErrorInput) (ex : ErrorPattern)
    (h : db.error_patterns.find? (errMatches e.language (strTake 50 e.errorText)) = some ex) :
    recordError db now newId e =
      ({ ex with frequency := ex.frequency + 1 },
       { db with error_patterns :=
           db.error_patterns.map (fun r =>
             if r.id = ex.id then
               { ex with
                   frequency := ex.frequency + 1
                   lastEncountered := now
                   solution := e.solution }
             else r) }) := by
  simp [recordError, h]

/-- The error recorder never touches the `developer_context` table. -/
theorem recordError_developer_context (db : Db) (now newId : Nat) (e : ErrorInput) :
    ((recordError db now newId e).2).developer_context = db.developer_context := by
  unfold recordError
  cases h : db.error_patterns.find? (errMatches e.language (strTake 50 e.errorText)) <;> rfl

/-- One iteration of the detector loop never touches the context table. -/
theorem detectStep_developer_context (api : String → Except Unit (Option String))
    (lang : Option String) (now : Nat) (code : String) (st : DetectState)
    (m : String → Option String) :
    (detectStep api lang now code st m).db.developer_context = st.db.developer_context := by
  unfold detectStep
  cases m code with
  | none => rfl
  | some errorText =>
    by_cases h : 0 < (match jsNonEmpty lang with
      | some l => getErrorSolutions st.db errorText l
      | none => []).length
    · simp only [h, if_true]
    · simp only [h, if_false]
      cases aiSolutionOf (api (solutionPrompt lang errorText)) with
      | none => rfl
      | some s =>
        cases jsNonEmpty lang with
        | none => rfl
        | some l => exact recordError_developer_context _ _ _ _

/-- The whole detector loop never touches the context table. -/
theorem foldl_detectStep_developer_context (api : String → Except Unit (Option String))
    (lang : Option String) (now : Nat) (code : String)
    (ms : List (String → Option String)) (st : DetectState) :
    ((ms.foldl (detectStep api lang now code) st).db.developer_context =
      st.db.developer_context) := by
  induction ms generalizing st with
  | nil => rfl
  | cons m ms ih =>
    rw [List.foldl_cons, ih, detectStep_developer_context]

/-- The error detector leaves the `developer_context` table unchanged. -/
theorem detectErrors_developer_context (api : String → Except Unit (Option String))
    (code : String) (lang : Option String) (db : Db) (now nextId : Nat) :
    (detectErrors api code lang db now nextId).db.developer_context =
      db.developer_context := by
  unfold detectErrors
  exact foldl_detectStep_developer_context api lang now code errorMatchers ⟨[], db, nextId, []⟩

/-- Mapping a function that fixes every member of a list is the identity. -/
theorem map_eq_self_of_mem {l : List α} {f : α → α} (h : ∀ a ∈ l, f a = a) :
    l.map f = l := by
  induction l with
  | nil => rfl
  | cons a l ih =>
    rw [List.map_cons, h a (List.mem_cons_self a l), ih (fun b hb => h b (List.mem_cons_of_mem a hb))]

/-- C9: `getErrorSolutions` returns at most 5 patterns, ordered by
descending frequency, and depends on the error text only through its first
100 characters: a longer candidate is truncated before the cache query. -/
theorem getErrorSolutions_spec (db : Db) (errorText language : String) :
    (getErrorSolutions db errorText language).length ≤ 5 ∧
    getErrorSolutions db errorText language =
      getErrorSolutions db (strTake 100 errorText) language ∧
    (getErrorSolutions db errorText language).Pairwise
      (fun a b => b.frequency ≤ a.frequency) := by
  refine ⟨?_, ?_, ?_⟩
  · unfold getErrorSolutions
    exact List.length_take_le 5 _
  · unfold getErrorSolutions
    rw [strTake_strTake]
  · unfold getErrorSolutions
    exact (pairwise_sortDescBy _ _).sublist (List.take_sublist 5 _)

/-- C10: the snippet search term is matched against the content and the
serialized tags, so a snippet whose content avoids the term is still
returned when the term occurs only in a tag, and the Snippet Matcher then
reports it as an exact match. -/
theorem getSnippets_tag_only_match :
    likeContains snipTag.content "needle" = false ∧
    likeContains (jsonTags snipTag.tags) "needle" = true ∧
    getSnippets dbTag ⟨none, some "needle", none⟩ = [snipTag] ∧
    findRelevantSnippets dbTag simZero "needle" none = some [snipTag] := by
  decide

/-- C6 (amended): the retention sweep never touches error patterns for any
horizon, and at horizon 0 it deletes exactly the snippet and context rows
stamped strictly before the current instant; a row stamped at the current
instant (or later) survives. -/
theorem cleanupOldData_spec (db : Db) (now : Nat) :
    (∀ daysToKeep, (cleanupOldData db now daysToKeep).error_patterns = db.error_patterns) ∧
    (∀ s ∈ db.snippets, s.timestamp < now → s ∉ (cleanupOldData db now 0).snippets) ∧
    (∀ c ∈ db.developer_context, c.lastActivity < now →
      c ∉ (cleanupOldData db now 0).developer_context) ∧
    (∀ s ∈ db.snippets, now ≤ s.timestamp → s ∈ (cleanupOldData db now 0).snippets) ∧
    (∀ c ∈ db.developer_context, now ≤ c.lastActivity →
      c ∈ (cleanupOldData db now 0).developer_context) := by
  refine ⟨fun _ => rfl, ?_, ?_, ?_, ?_⟩
  · intro s hs hlt
    simp only [cleanupOldData, List.mem_filter, Nat.sub_zero]
    intro hcon
    rcases hcon with ⟨-, hkeep⟩
    simp only [Bool.not_eq_true', decide_eq_false_iff_not] at hkeep
    exact hkeep hlt
  · intro c hc hlt
    simp only [cleanupOldData, List.mem_filter, Nat.sub_zero]
    intro hcon
    rcases hcon with ⟨-, hkeep⟩
    simp only [Bool.not_eq_true', decide_eq_false_iff_not] at hkeep
    exact hkeep hlt
  · intro s hs hle
    simp only [cleanupOldData, List.mem_filter, Nat.sub_zero]
    refine ⟨hs, ?_⟩
    simp only [Bool.not_eq_true', decide_eq_false_iff_not]
    omega
  · intro c hc hle
    simp only [cleanupOldData, List.mem_filter, Nat.sub_zero]
    refine ⟨hc, ?_⟩
    simp only [Bool.not_eq_true', decide_eq_false_iff_not]
    omega

/-- C6 counterexample: a snippet row and a context row stamped at the
current instant survive `cleanupOldData(0)`, so the call does not delete
every snippet and context row. -/
theorem cleanupOldData_now_counterexample :
    dbNow.snippets = [snipNow] ∧ dbNow.developer_context = [ctxNow] ∧
    (cleanupOldData dbNow 5 0).snippets = [snipNow] ∧
    (cleanupOldData dbNow 5 0).developer_context = [ctxNow] := by
  decide

/-- C6 witness: on a database whose rows are stamped at instant 0, a sweep
at instant 1 with horizon 0 removes the snippet and the context row and
leaves the error patterns unchanged. -/
theorem cleanupOldData_spec_witness :
    (cleanupOldData dbOld 1 30).error_patterns = dbOld.error_patterns ∧
    snipOld ∉ (cleanupOldData dbOld 1 0).snippets ∧
    ctxOld ∉ (cleanupOldData dbOld 1 0).developer_context := by
  have h := cleanupOldData_spec dbOld 1
  exact ⟨h.1 30, h.2.1 snipOld (by decide) (by decide),
    h.2.2.1 ctxOld (by decide) (by decide)⟩

/-- C7: a failure of developer-context retrieval, snippet retrieval, or
the completion call inside the Suggestion Generator is swallowed and the
generator returns the empty list instead of propagating. -/
theorem generateSuggestions_failure_swallowed (api : String → Except Unit (Option String))
    (fp lang : Option String) (code : String) (ctxRes : Except Unit (Option ContextRow))
    (snipRes : Except Unit (List CodeSnippet)) :
    (ctxRes = .error () → generateSuggestions api fp lang code ctxRes snipRes = []) ∧
    (snipRes = .error () → generateSuggestions api fp lang code ctxRes snipRes = []) ∧
    (∀ snips, snipRes = .ok snips →
      api (suggestionPrompt fp lang code snips) = .error () →
      generateSuggestions api fp lang code ctxRes snipRes = []) := by
  refine ⟨?_, ?_, ?_⟩
  · intro h
    subst h
    rfl
  · intro h
    subst h
    cases ctxRes <;> rfl
  · intro snips hs hapi
    subst hs
    cases ctxRes with
    | error e => rfl
    | ok a => simp [generateSuggestions, hapi]

/-- C7 witness: each of the three failure points, exercised concretely,
yields the empty suggestion list. -/
theorem generateSuggestions_failure_swallowed_witness :
    generateSuggestions apiTip none none "" (.error ()) (.ok []) = [] ∧
    generateSuggestions apiTip none none "" (.ok none) (.error ()) = [] ∧
    generateSuggestions apiErr none none "" (.ok none) (.ok []) = [] := by
  refine ⟨?_, ?_, ?_⟩
  · exact (generateSuggestions_failure_swallowed apiTip none none "" (.error ()) (.ok [])).1 rfl
  · exact (generateSuggestions_failure_swallowed apiTip none none "" (.ok none) (.error ())).2.1 rfl
  · exact (generateSuggestions_failure_swallowed apiErr none none "" (.ok none) (.ok [])).2.2 [] rfl rfl

/-- C3 (amended): the Suggestion Generator returns at most 3 entries; each
entry is a response line that began with a bullet marker, with one leading
marker and its following whitespace stripped and the result trimmed (so an
entry may still begin with a marker character when the line doubled the
marker); and on a successful response the output is exactly the first 3
(or fewer) bullet lines of the response, in order, so stripped. -/
theorem generateSuggestions_bullet_parse (api : String → Except Unit (Option String))
    (fp lang : Option String) (code : String) (ctxRes : Except Unit (Option ContextRow))
    (snipRes : Except Unit (List CodeSnippet)) :
    (generateSuggestions api fp lang code ctxRes snipRes).length ≤ 3 ∧
    (∀ x ∈ generateSuggestions api fp lang code ctxRes snipRes,
      ∃ snips content l, snipRes = .ok snips ∧
        api (suggestionPrompt fp lang code snips) = .ok (some content) ∧
        l ∈ splitOnCh '\n' content.toList ∧ isBulletLine l = true ∧
        x = String.mk (trimCh (stripBullet l))) ∧
    (∀ cr snips content, ctxRes = .ok cr → snipRes = .ok snips →
      api (suggestionPrompt fp lang code snips) = .ok (some content) →
      generateSuggestions api fp lang code ctxRes snipRes =
        (((splitOnCh '\n' content.toList).filter isBulletLine).take 3).map
          (fun l => String.mk (trimCh (stripBullet l)))) := by
  refine ⟨generateSuggestions_length_le api fp lang code ctxRes snipRes, ?_, ?_⟩
  · intro x hx
    cases ctxRes with
    | error e => simp [generateSuggestions] at hx
    | ok a =>
      cases snipRes with
      | error e => simp [generateSuggestions] at hx
      | ok snips =>
        cases hapi : api (suggestionPrompt fp lang code snips) with
        | error e => simp [generateSuggestions, hapi] at hx
        | ok c =>
          cases c with
          | none => simp [generateSuggestions, hapi] at hx
          | some content =>
            by_cases hc : content = ""
            · simp [generateSuggestions, hapi, hc] at hx
            · have hx2 : x ∈ parseBullets content := by
                simpa [generateSuggestions, hapi, hc] using hx
              obtain ⟨l, hl, hb, hxx⟩ := mem_parseBullets hx2
              exact ⟨snips, content, l, rfl, hapi, hl, hb, hxx⟩
  · intro cr snips content hc hs hapi
    subst hc
    subst hs
    by_cases hcc : content = ""
    · subst hcc
      have hnil : generateSuggestions api fp lang code (.ok cr) (.ok snips) = [] := by
        simp [generateSuggestions, hapi]
      rw [hnil]
      rfl
    · have hpb : generateSuggestions api fp lang code (.ok cr) (.ok snips) =
          parseBullets content := by
        simp [generateSuggestions, hapi, hcc]
      rw [hpb, parseBullets, List.map_take]

/-- C3 counterexample: on the response `--a` the generator emits the entry
`-a`, which still begins with a bullet marker. -/
theorem generateSuggestions_marker_counterexample :
    generateSuggestions apiDash none none "" (.ok none) (.ok []) = ["-a"] ∧
    isBulletLine (String.toList "-a") = true := by
  decide

/-- C3 witness: a concrete bulleted response produces the entry `a`, which
the theorem traces back to its source line, and the output equals the
stripped first bullet lines of that response. -/
theorem generateSuggestions_bullet_parse_witness :
    (generateSuggestions apiBullet none none "" (.ok none) (.ok [])).length ≤ 3 ∧
    (∃ snips content l, (Except.ok [] : Except Unit (List CodeSnippet)) = .ok snips ∧
      apiBullet (suggestionPrompt none none "" snips) = .ok (some content) ∧
      l ∈ splitOnCh '\n' content.toList ∧ isBulletLine l = true ∧
      "a" = String.mk (trimCh (stripBullet l))) ∧
    generateSuggestions apiBullet none none "" (.ok none) (.ok []) =
      (((splitOnCh '\n' (String.toList "- a")).filter isBulletLine).take 3).map
        (fun l => String.mk (trimCh (stripBullet l))) := by
  have h := generateSuggestions_bullet_parse apiBullet none none "" (.ok none) (.ok [])
  exact ⟨h.1, h.2.1 "a" (by decide), h.2.2 none [] "- a" rfl rfl rfl⟩

/-- C4: the Snippet Matcher returns at most 2 snippets, and whenever the
exact-substring search (language filter, first 50 characters of the
trimmed input, LIMIT 2) finds at least one snippet, exactly those snippets
are returned for every similarity oracle, so the semantic fallback is
never consulted. -/
theorem findRelevantSnippets_spec (db : Db) (sim : CodeSnippet → Nat) (code : String)
    (lang : Option String) :
    (∀ l, findRelevantSnippets db sim code lang = some l → l.length ≤ 2) ∧
    (jsTrim code ≠ "" →
      0 < (getSnippets db ⟨lang, some (strTake 50 (jsTrim code)), some 2⟩).length →
      findRelevantSnippets db sim code lang =
        some (getSnippets db ⟨lang, some (strTake 50 (jsTrim code)), some 2⟩)) := by
  constructor
  · intro l hl
    simp only [findRelevantSnippets] at hl
    by_cases h0 : jsTrim code = ""
    · rw [if_pos h0] at hl
      exact absurd hl (by simp)
    · rw [if_neg h0] at hl
      by_cases h1 : 0 < (getSnippets db
          { language := lang, searchTerm := some (strTake 50 (jsTrim code)), limit := some 2 }).length
      · rw [if_pos h1] at hl
        have he := Option.some.inj hl
        rw [← he]
        exact getSnippets_length_le db _ 2 rfl (by decide)
      · rw [if_neg h1] at hl
        have he := Option.some.inj hl
        rw [← he]
        rw [List.length_map]
        exact List.length_take_le 2 _
  · intro h0 h1
    simp only [findRelevantSnippets]
    rw [if_neg h0, if_pos h1]

/-- C4 witness: with one stored snippet whose content starts with the
searched text, the exact search finds it and the matcher returns it. -/
theorem findRelevantSnippets_spec_witness :
    ([snipAbc] : List CodeSnippet).length ≤ 2 ∧
    findRelevantSnippets dbAbc simZero "abc" none =
      some (getSnippets dbAbc ⟨none, some (strTake 50 (jsTrim "abc")), some 2⟩) := by
  have h := findRelevantSnippets_spec dbAbc simZero "abc" none
  exact ⟨h.1 [snipAbc] (by decide), h.2 (by decide) (by decide)⟩

/-- C2: when the record created by a first `recordError` call is the only
stored pattern containing the first 50 characters of a second observation
in the same language, the second call creates no second row and instead
updates that record in place: frequency 2, `lastEncountered` refreshed to
the second instant, and the solution replaced. -/
theorem recordError_second_observation (db : Db) (e1 e2 : ErrorInput)
    (now1 now2 id1 id2 : Nat)
    (hlang : e2.language = e1.language)
    (hfresh : ∀ r ∈ db.error_patterns, r.id ≠ id1)
    (h1 : db.error_patterns.find? (errMatches e1.language (strTake 50 e1.errorText)) = none)
    (h2 : db.error_patterns.find? (errMatches e2.language (strTake 50 e2.errorText)) = none)
    (hsim : likeContains e1.errorText (strTake 50 e2.errorText) = true) :
    (recordError (recordError db now1 id1 e1).2 now2 id2 e2).2.error_patterns =
      db.error_patterns ++ [⟨id1, e1.errorText, e2.solution, e1.language, 2, now2⟩] ∧
    (recordError (recordError db now1 id1 e1).2 now2 id2 e2).2.error_patterns.length =
      (recordError db now1 id1 e1).2.error_patterns.length ∧
    (recordError (recordError db now1 id1 e1).2 now2 id2 e2).1.frequency = 2 ∧
    (recordError (recordError db now1 id1 e1).2 now2 id2 e2).1.id = id1 := by
  have hdb1 := recordError_not_found db now1 id1 e1 h1
  have hdb1ep : ((recordError db now1 id1 e1).2).error_patterns =
      db.error_patterns ++ [⟨id1, e1.errorText, e1.solution, e1.language, 1, now1⟩] := by
    rw [hdb1]
  have hfind : ((recordError db now1 id1 e1).2).error_patterns.find?
      (errMatches e2.language (strTake 50 e2.errorText)) =
      some ⟨id1, e1.errorText, e1.solution, e1.language, 1, now1⟩ := by
    rw [hdb1ep, List.find?_append, h2]
    simp [List.find?, errMatches, hlang, hsim]
  have hmain := recordError_found ((recordError db now1 id1 e1).2) now2 id2 e2
    ⟨id1, e1.errorText, e1.solution, e1.language, 1, now1⟩ hfind
  have hmain_ep : (recordError (recordError db now1 id1 e1).2 now2 id2 e2).2.error_patterns =
      ((recordError db now1 id1 e1).2).error_patterns.map (fun r =>
        if r.id = id1 then ⟨id1, e1.errorText, e2.solution, e1.language, 2, now2⟩ else r) := by
    rw [hmain]
  have hmain_fst : (recordError (recordError db now1 id1 e1).2 now2 id2 e2).1 =
      ⟨id1, e1.errorText, e1.solution, e1.language, 2, now1⟩ := by
    rw [hmain]
  refine ⟨?_, ?_, ?_, ?_⟩
  · rw [hmain_ep, hdb1ep, List.map_append]
    have hmapdb : db.error_patterns.map (fun r =>
        if r.id = id1 then (⟨id1, e1.errorText, e2.solution, e1.language, 2, now2⟩ : ErrorPattern) else r) =
        db.error_patterns :=
      map_eq_self_of_mem (fun r hr => if_neg (hfresh r hr))
    rw [hmapdb]
    simp
  · rw [hmain_ep]
    simp
  · rw [hmain_fst]
  · rw [hmain_fst]

/-- C2 witness: two concrete observations of `E1: boom` in TypeScript leave
one row with frequency 2, the refreshed instant, and the new solution. -/
theorem recordError_second_observation_witness :
    (recordError (recordError dbEmpty 1 10 errBoom1).2 2 11 errBoom2).2.error_patterns =
      [⟨10, "E1: boom", "s2", "ts", 2, 2⟩] ∧
    (recordError (recordError dbEmpty 1 10 errBoom1).2 2 11 errBoom2).1.frequency = 2 := by
  have h := recordError_second_observation dbEmpty errBoom1 errBoom2 1 2 10 11 rfl
    (by intro r hr; simp [dbEmpty] at hr) rfl rfl (by decide)
  exact ⟨by simpa using h.1, h.2.2.1⟩

/-- C1 (amended): for a candidate error string the solution cache is
queried first; when it holds zero cached solutions the completion API is
invoked exactly once for that candidate, and on a successful (non-empty)
response exactly one (error, solution) pair is emitted and exactly one
cache write is performed through `recordError` — a new frequency-1 entry
when no stored same-language pattern contains the candidate's first 50
characters, otherwise an in-place increment of that pattern (the 50- and
100-character keys differ, so a cache-miss candidate may still increment
an existing entry instead of creating one). -/
theorem detectStep_cache_miss (api : String → Except Unit (Option String))
    (lang : Option String) (lg : String) (now : Nat) (code c : String)
    (st : DetectState) (matcher : String → Option String)
    (hm : matcher code = some c)
    (hl : jsNonEmpty lang = some lg)
    (hmiss : getErrorSolutions st.db c lg = []) :
    (detectStep api lang now code st matcher).calls = st.calls ++ [solutionPrompt lang c] ∧
    (aiSolutionOf (api (solutionPrompt lang c)) = none →
      (detectStep api lang now code st matcher).found = st.found ∧
      (detectStep api lang now code st matcher).db = st.db) ∧
    (∀ s, aiSolutionOf (api (solutionPrompt lang c)) = some s →
      (detectStep api lang now code st matcher).found = st.found ++ [⟨c, s⟩] ∧
      (detectStep api lang now code st matcher).db =
        (recordError st.db now st.nextId ⟨c, s, lg⟩).2 ∧
      (st.db.error_patterns.find? (errMatches lg (strTake 50 c)) = none →
        (detectStep api lang now code st matcher).db.error_patterns =
          st.db.error_patterns ++ [⟨st.nextId, c, s, lg, 1, now⟩])) := by
  have hstep : ∀ res, aiSolutionOf (api (solutionPrompt lang c)) = res →
      detectStep api lang now code st matcher =
        (match res with
         | none => { st with calls := st.calls ++ [solutionPrompt lang c] }
         | some s =>
           { st with
               calls := st.calls ++ [solutionPrompt lang c]
               found := st.found ++ [⟨c, s⟩]
               db := (recordError st.db now st.nextId ⟨c, s, lg⟩).2
               nextId := st.nextId + 1 }) := by
    intro res hres
    simp only [detectStep, hm, hl, hmiss, List.length_nil, lt_self_iff_false, if_false, hres]
  refine ⟨?_, ?_, ?_⟩
  · cases hai : aiSolutionOf (api (solutionPrompt lang c)) with
    | none => rw [hstep none hai]
    | some s => rw [hstep (some s) hai]
  · intro hai
    rw [hstep none hai]
    exact ⟨rfl, rfl⟩
  · intro s hai
    rw [hstep (some s) hai]
    refine ⟨rfl, rfl, ?_⟩
    intro hnone
    show ((recordError st.db now st.nextId ⟨c, s, lg⟩).2).error_patterns =
      st.db.error_patterns ++ [⟨st.nextId, c, s, lg, 1, now⟩]
    rw [recordError_not_found st.db now st.nextId ⟨c, s, lg⟩ hnone]

/-- C1 counterexample: a 67-character candidate misses the 100-character
cache lookup, the API is called once and one pair is emitted, yet the
50-character dedup key of `recordError` matches the stored pattern, so no
new frequency-1 entry is persisted — the existing entry is bumped to 2. -/
theorem detectErrors_cache_miss_increment_counterexample :
    getErrorSolutions dbC1 cC "ts" = [] ∧
    (detectErrors apiFix cC (some "ts") dbC1 5 100).calls =
      [solutionPrompt (some "ts") cC] ∧
    (detectErrors apiFix cC (some "ts") dbC1 5 100).found = [⟨cC, "fix"⟩] ∧
    (detectErrors apiFix cC (some "ts") dbC1 5 100).db.error_patterns =
      [⟨7, cA, "fix", "ts", 2, 5⟩] ∧
    (∀ r ∈ (detectErrors apiFix cC (some "ts") dbC1 5 100).db.error_patterns,
      r.frequency ≠ 1) := by
  decide

/-- C1 witness: a fresh candidate with an empty cache issues one prompt,
emits one pair, and persists one frequency-1 entry. -/
theorem detectStep_cache_miss_witness :
    (detectStep apiFix (some "ts") 3 "error: x" stEmpty matchP0).calls =
      [solutionPrompt (some "ts") "error: x"] ∧
    (detectStep apiFix (some "ts") 3 "error: x" stEmpty matchP0).found =
      [⟨"error: x", "fix"⟩] ∧
    (detectStep apiFix (some "ts") 3 "error: x" stEmpty matchP0).db.error_patterns =
      [⟨0, "error: x", "fix", "ts", 1, 3⟩] := by
  have h := detectStep_cache_miss apiFix (some "ts") "ts" 3 "error: x" "error: x" stEmpty
    matchP0 (by decide) rfl rfl
  have h3 := h.2.2 "fix" (by decide)
  exact ⟨by simpa using h.1, by simpa using h3.1, by simpa using h3.2.2 rfl⟩

/-- C5 (amended): on empty input the pipeline does not throw and returns
`errors = undefined` and `snippets = undefined`, but the Suggestion
Generator is still consulted: the suggestions are the bullet-parsed API
response (at most 3 entries) and are empty whenever the API yields no
bullet-marker line. -/
theorem process_empty_spec (api : String → Except Unit (Option String))
    (sim : CodeSnippet → Nat) (db : Db) (now nextId : Nat) :
    (processCodeContent api sim db now nextId "" ⟨none, none, "x"⟩).errors = none ∧
    (processCodeContent api sim db now nextId "" ⟨none, none, "x"⟩).snippets = none ∧
    (processCodeContent api sim db now nextId "" ⟨none, none, "x"⟩).suggestions.length ≤ 3 ∧
    ((∀ p content, api p = .ok (some content) → parseBullets content = []) →
      (processCodeContent api sim db now nextId "" ⟨none, none, "x"⟩).suggestions = []) := by
  refine ⟨rfl, rfl, ?_, ?_⟩
  · exact generateSuggestions_length_le api none none ""
      (.ok (getCurrentContext (updateDeveloperContext db now ⟨some "x", none, none, some now⟩)))
      (.ok (getSnippets (updateDeveloperContext db now ⟨some "x", none, none, some now⟩)
        ⟨none, none, some 3⟩))
  · intro h
    exact generateSuggestions_no_bullets api none none ""
      (.ok (getCurrentContext (updateDeveloperContext db now ⟨some "x", none, none, some now⟩)))
      (.ok (getSnippets (updateDeveloperContext db now ⟨some "x", none, none, some now⟩)
        ⟨none, none, some 3⟩)) h

/-- C5 counterexample: with a completion API that answers `- tip`, the
empty-input pipeline returns a non-empty suggestion list, so the result is
not `{ suggestions: [], errors: undefined, snippets: undefined }`. -/
theorem process_empty_counterexample :
    (processCodeContent apiTip simZero dbEmpty 0 0 "" ⟨none, none, "x"⟩).suggestions =
      ["tip"] ∧
    (processCodeContent apiTip simZero dbEmpty 0 0 "" ⟨none, none, "x"⟩).suggestions ≠ [] ∧
    (processCodeContent apiTip simZero dbEmpty 0 0 "" ⟨none, none, "x"⟩).errors = none ∧
    (processCodeContent apiTip simZero dbEmpty 0 0 "" ⟨none, none, "x"⟩).snippets = none := by
  decide

/-- C5 witness: with a failing completion API the empty-input pipeline
returns the exact merged result the original claim expected. -/
theorem process_empty_spec_witness :
    (processCodeContent apiErr simZero dbEmpty 0 0 "" ⟨none, none, "x"⟩).errors = none ∧
    (processCodeContent apiErr simZero dbEmpty 0 0 "" ⟨none, none, "x"⟩).snippets = none ∧
    (processCodeContent apiErr simZero dbEmpty 0 0 "" ⟨none, none, "x"⟩).suggestions.length ≤ 3 ∧
    (processCodeContent apiErr simZero dbEmpty 0 0 "" ⟨none, none, "x"⟩).suggestions = [] := by
  have h := process_empty_spec apiErr simZero dbEmpty 0 0
  exact ⟨h.1, h.2.1, h.2.2.1, h.2.2.2 (fun p content hc => by simp [apiErr] at hc)⟩

/-- C8 (amended): the Context Updater appends exactly one record stamped
with the current instant, substituting `unknown` for a falsy app name; its
storage failure propagates to the caller; it completes before the analysis
stages, which observe the appended row.  It is however not the only stage
whose failure propagates: the Error Detector's solution-cache queries run
outside any `try/catch`, so their storage failures also reject the
pipeline. -/
theorem contextUpdater_spec (api : String → Except Unit (Option String))
    (sim : CodeSnippet → Nat) (db : Db) (now nextId : Nat) (content : String)
    (ctx : ProcessContext) :
    processCodeContentE true false api sim db now nextId content ctx = .error () ∧
    (∀ c : ContextInput, (updateDeveloperContext db now c).developer_context =
      db.developer_context ++
        [⟨db.developer_context.length, jsOr c.currentApp "unknown", c.activeFile,
          c.projectRoot, now⟩]) ∧
    (∀ r, processCodeContentE false false api sim db now nextId content ctx = .ok r →
      r.db.developer_context = db.developer_context ++
        [⟨db.developer_context.length, jsOr (some ctx.sourceApp) "unknown", ctx.filePath,
          none, now⟩]) := by
  refine ⟨rfl, fun c => rfl, ?_⟩
  intro r hr
  have hr2 : processCodeContent api sim db now nextId content ctx = r := by
    simpa [processCodeContentE] using hr
  subst hr2
  show (detectErrors api content ctx.language (updateDeveloperContext db now
      ⟨some ctx.sourceApp, ctx.filePath, none, some now⟩) now nextId).db.developer_context = _
  rw [detectErrors_developer_context]
  rfl

/-- C8 counterexample: with the updater succeeding but the first
solution-cache query failing, the pipeline rejects — the Context Updater
is not the only stage whose failure reaches the caller. -/
theorem detectErrors_storage_failure_counterexample :
    processCodeContentE false true apiFix simZero dbEmpty 0 0 "error: x"
      ⟨none, some "ts", "app"⟩ = .error () ∧
    processCodeContentE true false apiFix simZero dbEmpty 0 0 "error: x"
      ⟨none, some "ts", "app"⟩ = .error () := by
  exact ⟨rfl, rfl⟩

/-- C8 witness: a concrete run shows the propagated updater failure, the
`unknown` sentinel, and the appended stamped row surviving the pipeline. -/
theorem contextUpdater_spec_witness :
    processCodeContentE true false apiErr simZero dbEmpty 0 0 "" ⟨none, none, "app"⟩ =
      .error () ∧
    (updateDeveloperContext dbEmpty 0 ⟨none, none, none, none⟩).developer_context =
      [⟨0, "unknown", none, none, 0⟩] ∧
    (processCodeContent apiErr simZero dbEmpty 0 0 "" ⟨none, none, "app"⟩).db.developer_context =
      dbEmpty.developer_context ++
        [⟨dbEmpty.developer_context.length, jsOr (some "app") "unknown", none, none, 0⟩] := by
  have h := contextUpdater_spec apiErr simZero dbEmpty 0 0 "" ⟨none, none, "app"⟩
  refine ⟨h.1, ?_, ?_⟩
  · have h2 := h.2.1 ⟨none, none, none, none⟩
    simpa [jsOr] using h2
  · exact h.2.2 (processCodeContent apiErr simZero dbEmpty 0 0 "" ⟨none, none, "app"⟩) rfl
